import Mathlib

/-!
A shallow embedding of minikube's service-exposure subsystem
(`pkg/minikube/service/service.go`): the service URL resolver, the readiness
check, the HTTPS-upgrade helper, the exposure orchestrator, and the secret
lifecycle operations, together with theorems checking the specification's
claims about them.

Effectful collaborators (the kubernetes client, the retry primitive, the
browser launcher) are embedded by passing their results or behavior as
explicit arguments; strings and lists model Go strings, slices and maps.
-/

namespace MinikubeService

/-- Go errors as used in the source: a plain error (`errors.New`/`fmt.Errorf`),
a wrapped error (`errors.Wrap`/`errors.Wrapf`), and the `retry.RetriableError`
wrapper that marks a failure as retriable. -/
inductive GoError where
  | msg (s : String)
  | wrap (context : String) (cause : GoError)
  | retriable (cause : GoError)
  deriving Repr, DecidableEq

/-- A Go error is retriable exactly when its outermost wrapper is
`retry.RetriableError` (the retry loop dispatches on the dynamic type of the
error value it receives). -/
def GoError.isRetriable : GoError → Bool
  | .retriable _ => true
  | _ => false

/-! ### Strings helpers (Go standard library fragments used by the source) -/

/-- Models Go's `strings.Replace(s, old, new, 1)` search: scan `s` left to
right; at the first position where `old` is a prefix of the remaining input,
emit `new` and the input with that occurrence dropped; otherwise keep the
character and continue. -/
def replaceFirstAux (old new : List Char) : List Char → List Char
  | [] => []
  | c :: rest =>
    if old.isPrefixOf (c :: rest) then new ++ (c :: rest).drop old.length
    else c :: replaceFirstAux old new rest

/-- Models Go's `strings.Replace(s, old, new, 1)`: replace the first occurrence
of `old` in `s` by `new` (an empty `old` matches at the start of `s`). -/
def replaceFirst (s old new : String) : String :=
  if old.isEmpty then new ++ s
  else String.mk (replaceFirstAux old.data new.data s.data)

/-! ### net/url parsing (Go standard library)

The source consults `u.Scheme` of `url.Parse` and its success
(`parseErr == nil`), so `url.Parse` is embedded as a success predicate
returning the lowercased scheme: fragment split and fragment escape
validation, the control-byte check, `getScheme`, the query split, the opaque
early return for rootless paths under a scheme, authority validation
(userinfo, host with IPv6 brackets, zone identifiers, port digits,
percent-escape and host-character rules) and path escape validation. The
character-level model is exact on valid-UTF-8 inputs because every byte the
parser singles out is ASCII and UTF-8 is self-synchronizing. -/

/-- Character class that may start or continue a scheme. -/
def isSchemeAlpha (c : Char) : Bool :=
  (('a' ≤ c ∧ c ≤ 'z') ∨ ('A' ≤ c ∧ c ≤ 'Z') : Bool)

/-- Character class that may continue (but not start) a scheme. -/
def isSchemeExtra (c : Char) : Bool :=
  (('0' ≤ c ∧ c ≤ '9') ∨ c = '+' ∨ c = '-' ∨ c = '.' : Bool)

/-- Models Go's `net/url` `getScheme` loop. `acc` holds the scheme characters
consumed so far (reversed); returns `none` on the `missing protocol scheme`
error, otherwise the extracted scheme (empty when the input has no scheme)
and the remainder the parser continues with (the whole input when there is no
scheme). -/
def getSchemeAux (acc : List Char) : List Char → Option (List Char × List Char)
  | [] => some ([], acc.reverse)
  | c :: rest =>
    if isSchemeAlpha c then getSchemeAux (c :: acc) rest
    else if isSchemeExtra c then
      if acc.isEmpty then some ([], c :: rest) else getSchemeAux (c :: acc) rest
    else if c = ':' then
      if acc.isEmpty then none else some (acc.reverse, rest)
    else some ([], acc.reverse ++ c :: rest)

/-- Models Go's `net/url` `split(s, sep, cutc)`: the part before the first
occurrence of the separator and the remainder, the separator dropped when
`cutc` (the whole input and an empty remainder when the separator is
absent). -/
def splitOnce (s : List Char) (sep : Char) (cutc : Bool) : List Char × List Char :=
  match s with
  | [] => ([], [])
  | c :: rest =>
    if c = sep then ([], if cutc then rest else c :: rest)
    else
      let r := splitOnce rest sep cutc
      (c :: r.1, r.2)

/-- Models `strings.LastIndex` for a single character. -/
def lastIndexOfChar (s : List Char) (c : Char) : Option Nat :=
  match s with
  | [] => none
  | x :: rest =>
    match lastIndexOfChar rest c with
    | some i => some (i + 1)
    | none => if x = c then some 0 else none

/-- Models `strings.Index(s, "%25")`: the position of the first occurrence of
the literal `%25`. -/
def indexOfPct25 : List Char → Option Nat
  | '%' :: '2' :: '5' :: _ => some 0
  | _ :: rest => (indexOfPct25 rest).map (fun i => i + 1)
  | [] => none

/-- Models net/url `ishex`. -/
def ishex (c : Char) : Bool :=
  (('0' ≤ c ∧ c ≤ '9') ∨ ('a' ≤ c ∧ c ≤ 'f') ∨ ('A' ≤ c ∧ c ≤ 'F') : Bool)

/-- Models net/url `unhex`. -/
def unhex (c : Char) : Nat :=
  if '0' ≤ c ∧ c ≤ '9' then c.toNat - '0'.toNat
  else if 'a' ≤ c ∧ c ≤ 'f' then c.toNat - 'a'.toNat + 10
  else if 'A' ≤ c ∧ c ≤ 'F' then c.toNat - 'A'.toNat + 10
  else 0

/-- ASCII letters and digits. -/
def isAlnum (c : Char) : Bool :=
  (('a' ≤ c ∧ c ≤ 'z') ∨ ('A' ≤ c ∧ c ≤ 'Z') ∨ ('0' ≤ c ∧ c ≤ '9') : Bool)

/-- Models net/url `shouldEscape(c, encodeHost) == false`: the characters the
host (and zone) component accepts unescaped — alphanumerics, the sub-delims
plus `: [ ] < > "` and apostrophe, and the unreserved marks. -/
def hostSafe (c : Char) : Bool :=
  isAlnum c ||
  [ '!', '$', '&', Char.ofNat 39, '(', ')', '*', '+', ',', ';', '=',
    ':', '[', ']', '<', '>', Char.ofNat 34].contains c ||
  [ '-', '_', '.', '~'].contains c

/-- Models net/url `shouldEscape(v, encodeHost)` on a decoded byte value:
bytes at or above 0x80 always need escaping; ASCII bytes need escaping
exactly when they are not host-safe. -/
def shouldEscapeHostByte (v : Nat) : Bool :=
  if v < 128 then !(hostSafe (Char.ofNat v)) else true

/-- The escape-validation modes of net/url `unescape` the source's parse can
reach: host, zone identifier, userinfo, path and fragment. -/
inductive EncMode where
  | host
  | zone
  | userPassword
  | path
  | fragment
  deriving Repr, DecidableEq

/-- Models the error side of net/url `unescape(s, mode)`: every `%` must be
followed by two hex digits; in the host, ASCII bytes may not be
percent-escaped (`%25` excepted) and unescaped ASCII characters must be
host-safe; in a zone identifier, escaped bytes must be host-safe or `%25` or
an escaped space, and unescaped ASCII characters must be host-safe; the
other modes validate only the hex digits. -/
def unescapeOK (mode : EncMode) : List Char → Bool
  | [] => true
  | '%' :: c1 :: c2 :: rest2 =>
    if !(ishex c1) || !(ishex c2) then false
    else if mode = EncMode.host ∧ unhex c1 < 8 ∧ ¬(c1 = '2' ∧ c2 = '5') then false
    else if mode = EncMode.zone ∧ ¬(c1 = '2' ∧ c2 = '5') ∧
        unhex c1 * 16 + unhex c2 ≠ 32 ∧
        shouldEscapeHostByte (unhex c1 * 16 + unhex c2) then false
    else unescapeOK mode rest2
  | '%' :: _ => false
  | c :: rest =>
    if (mode = EncMode.host ∨ mode = EncMode.zone) ∧ c.toNat < 128 ∧
        !(hostSafe c) then false
    else unescapeOK mode rest

/-- Models net/url `validOptionalPort`: empty, or a colon followed by decimal
digits only. -/
def portOK : List Char → Bool
  | [] => true
  | ':' :: ds => ds.all (fun c => ('0' ≤ c ∧ c ≤ '9' : Bool))
  | _ => false

/-- Models net/url `validUserinfo`'s per-character rule. -/
def validUserinfoChar (c : Char) : Bool :=
  isAlnum c ||
  [ '-', '.', '_', ':', '~', '!', '$', '&', Char.ofNat 39, '(', ')',
    '*', '+', ',', ';', '=', '%', '@'].contains c

/-- Models net/url `validUserinfo`. -/
def validUserinfo (s : List Char) : Bool := s.all validUserinfoChar

/-- Models net/url `parseHost`: a bracketed host needs a closing bracket and
digit-only port, with an optional `%25`-introduced zone identifier validated
in zone mode; a plain host validates the portion after its last colon as a
port; either way the host's escapes and characters are validated in host
mode. -/
def parseHostOK (host : List Char) : Bool :=
  match host with
  | '[' :: _ =>
    match lastIndexOfChar host ']' with
    | none => false
    | some i =>
      if !(portOK (host.drop (i + 1))) then false
      else
        match indexOfPct25 (host.take i) with
        | some z =>
          unescapeOK .host (host.take z) &&
          unescapeOK .zone ((host.take i).drop z) &&
          unescapeOK .host (host.drop i)
        | none => unescapeOK .host host
  | _ =>
    match lastIndexOfChar host ':' with
    | some i => if !(portOK (host.drop i)) then false else unescapeOK .host host
    | none => unescapeOK .host host

/-- Models net/url `parseAuthority`: the host after the last `@` is parsed as
a host; any userinfo before it must be made of userinfo characters and, split
at its first colon into user and password, have valid escapes. -/
def parseAuthorityOK (authority : List Char) : Bool :=
  match lastIndexOfChar authority '@' with
  | none => parseHostOK authority
  | some i =>
    if !(parseHostOK (authority.drop (i + 1))) then false
    else if !(validUserinfo (authority.take i)) then false
    else if (authority.take i).contains ':' then
      let up := splitOnce (authority.take i) ':' true
      unescapeOK .userPassword up.1 && unescapeOK .userPassword up.2
    else unescapeOK .userPassword (authority.take i)

/-- Models net/url `stringContainsCTLByte`: any byte below 0x20 or equal to
0x7f (multi-byte UTF-8 characters contribute no such byte). -/
def containsCTLByte (s : List Char) : Bool :=
  s.any (fun c => c.toNat < 32 || c.toNat = 127)

/-- Models the authority and path steps of net/url `parse`: when the
remainder begins with `//` — except a `///` remainder under an empty scheme —
the authority up to the next slash is validated, then the remaining path's
escapes are validated. -/
def afterAuthority (scheme : String) (rest : List Char) : Option String :=
  match rest with
  | '/' :: '/' :: rest2 =>
    if decide (scheme = "") && (match rest2 with | '/' :: _ => true | _ => false) then
      if unescapeOK .path rest then some scheme else none
    else
      let ar := splitOnce rest2 '/' false
      if parseAuthorityOK ar.1 then
        if unescapeOK .path ar.2 then some scheme else none
      else none
  | _ => if unescapeOK .path rest then some scheme else none

/-- Models net/url `parse(u, viaRequest := false)` up to its success and
scheme: the control-byte check, the `*` special case, `getScheme` with
lowercasing, the query split (`ForceQuery` only moves the `?` out of the
remainder), the opaque early return for a rootless path under a non-empty
scheme, the first-segment colon check under an empty scheme, then authority
and path validation. -/
def parseSchemeCore (u : List Char) : Option String :=
  if containsCTLByte u then none
  else if u = ['*'] then some ""
  else
    match getSchemeAux [] u with
    | none => none
    | some sr =>
      let scheme : String := String.mk (sr.1.map Char.toLower)
      let rest : List Char :=
        if sr.2.getLast? = some '?' ∧ !(sr.2.dropLast.contains '?') then sr.2.dropLast
        else (splitOnce sr.2 '?' true).1
      match rest with
      | '/' :: _ => afterAuthority scheme rest
      | _ =>
        if scheme ≠ "" then some scheme
        else if ((splitOnce rest '/' false).1).contains ':' then none
        else afterAuthority scheme rest

/-- Models Go's `url.Parse` as the source uses it (success and `u.Scheme`):
the fragment is split off first and its escapes validated, the rest goes
through `parse`; the lowercased scheme is returned when the whole parse
succeeds, `none` when any step fails (so the source's `parseErr == nil`
guard is `Option.isSome`). -/
def urlParseScheme (s : String) : Option String :=
  let uf := splitOnce s.data '#' true
  match parseSchemeCore uf.1 with
  | none => none
  | some scheme => if unescapeOK .fragment uf.2 then some scheme else none

/-- Embeds `OptionallyHTTPSFormattedURLString` (service.go lines 234-248):
returns the (optionally https-upgraded) URL string and whether the original
URL's parsed scheme was exactly `http`. -/
def OptionallyHTTPSFormattedURLString (bareURLString : String) (https : Bool) :
    String × Bool :=
  let isHTTPSchemedURL : Bool :=
    match urlParseScheme bareURLString with
    | some sch => sch = "http"
    | none => false
  let httpsFormattedString :=
    if isHTTPSchemedURL && https then replaceFirst bareURLString "http" "https"
    else bareURLString
  (httpsFormattedString, isHTTPSchemedURL)

/-! ### Kubernetes data model (the fields the source reads) -/

/-- Models `intstr.IntOrString` (a target port declared either as an integer
or as a named string port). -/
inductive IntOrString where
  | int (i : Int)
  | str (s : String)
  deriving Repr, DecidableEq

/-- Models reading the `IntVal` field of an `intstr.IntOrString`: the int32
field holds the declared integer for int-typed values and stays at its zero
value, `0`, for string-typed values. -/
def IntOrString.intVal : IntOrString → Int
  | .int i => i
  | .str _ => 0

/-- Models `core.ServicePort`: one declared port of a service. `nodePort` and
the numeric view of `targetPort` are int32 in Go; no arithmetic is performed
on them, so `Int` is exact. -/
structure ServicePort where
  name : String
  nodePort : Int
  targetPort : IntOrString
  deriving Repr, DecidableEq

/-- Models the fields of `core.Service` the source reads: name, namespace and
the declared port list (`svc.Spec.Ports`). -/
structure Service where
  name : String
  ns : String
  ports : List ServicePort
  deriving Repr, DecidableEq

/-- Models `core.EndpointPort`: one port entry of an endpoint subset. -/
structure EndpointPort where
  name : String
  port : Int
  deriving Repr, DecidableEq

/-- Models `core.EndpointSubset`: the source only reads its `Ports` slice. -/
structure EndpointSubset where
  ports : List EndpointPort
  deriving Repr, DecidableEq

/-- Models `core.Endpoints`: the source only reads its `Subsets` slice. -/
structure Endpoints where
  subsets : List EndpointSubset
  deriving Repr, DecidableEq

/-- The `SvcURL` result type (service.go lines 103-108): the resolved
exposure of one service. -/
structure SvcURL where
  ns : String
  name : String
  URLs : List String
  PortNames : List String
  deriving Repr, DecidableEq

/-! ### Service URL resolver (`printURLsForService`, lines 170-212) -/

/-- The input record handed to the URL template on each render
(the anonymous struct at lines 195-203): host IP, node port, endpoint port
name. -/
structure TemplateInput where
  IP : String
  Port : Int
  Name : String
  deriving Repr, DecidableEq

/-- A URL template as the source uses it: executing it on a `TemplateInput`
either renders a string or fails. A Go `nil` template is `Option.none` at the
call sites. -/
def Template : Type := TemplateInput → Except String String

/-- The endpoint-port-to-name index `m` (lines 181-188): start from the empty
Go map (whose lookup yields the zero value `""` for absent keys) and assign
`m[p.Port] = p.Name` for every port `p` of every subset, in iteration order,
later assignments overwriting earlier ones. -/
def buildPortMap (subsets : List EndpointSubset) : Int → String :=
  subsets.foldl
    (fun m ept =>
      ept.ports.foldl (fun m p => fun k => if k = p.port then p.name else m k) m)
    (fun _ => "")

/-- The guard at line 182: the index is populated only when the endpoints
fetch succeeded (`err == nil && endpoints != nil`) and at least one subset is
present; otherwise `m` stays the empty map. -/
def endpointPortIndex (eptResult : Except GoError Endpoints) : Int → String :=
  match eptResult with
  | .ok endpoints =>
    if 0 < endpoints.subsets.length then buildPortMap endpoints.subsets
    else fun _ => ""
  | .error _ => fun _ => ""

/-- The per-port loop of `printURLsForService` (lines 192-210): for each
declared port in order, skip it unless `port.NodePort > 0`; otherwise execute
the template on (ip, node port, `m[port.TargetPort.IntVal]`), aborting the
whole resolution on a template error, and append the rendered URL and the
resolved name to the result lists. -/
def svcPortLoop (t : Template) (ip : String) (m : Int → String) :
    List ServicePort → Except GoError (List String × List String)
  | [] => .ok ([], [])
  | port :: rest =>
    if 0 < port.nodePort then
      match t { IP := ip, Port := port.nodePort, Name := m port.targetPort.intVal } with
      | .error e => .error (.msg e)
      | .ok doc =>
        match svcPortLoop t ip m rest with
        | .error e => .error e
        | .ok (urls, portNames) =>
          .ok (doc :: urls, m port.targetPort.intVal :: portNames)
    else svcPortLoop t ip m rest

/-- Embeds `printURLsForService` (lines 170-212). The service and endpoints
fetches are passed as their results; a Go `nil` template is `none`. A `nil`
template is an immediate error; a failed service fetch is a wrapped error; a
failed or empty endpoints fetch only leaves the port index empty. -/
def printURLsForService (svcResult : Except GoError Service)
    (eptResult : Except GoError Endpoints) (ip : String) (t : Option Template) :
    Except GoError SvcURL :=
  match t with
  | none => .error (.msg "Error, attempted to generate service url with nil --format template")
  | some tmpl =>
    match svcResult with
    | .error e => .error (.wrap "service could not be found running" e)
    | .ok svc =>
      let m := endpointPortIndex eptResult
      match svcPortLoop tmpl ip m svc.ports with
      | .error e => .error e
      | .ok (urls, portNames) =>
        .ok { ns := svc.ns, name := svc.name, URLs := urls, PortNames := portNames }

/-! ### Readiness check (`CheckService`, lines 215-232) -/

/-- Embeds `CheckService` (lines 215-232): a failed client acquisition is a
plain wrapped error, a failed service fetch is a `RetriableError`, a fetched
service with an empty port list is a plain `fmt.Errorf` error, and otherwise
the check succeeds (`none`). -/
def CheckService (clientResult : Except GoError Unit)
    (svcResult : Except GoError Service) (ns service : String) : Option GoError :=
  match clientResult with
  | .error e => some (.wrap "Error getting kubernetes client" e)
  | .ok _ =>
    match svcResult with
    | .error e => some (.retriable (.wrap ("Error getting service " ++ service) e))
    | .ok svc =>
      if svc.ports.length = 0 then some (.msg (ns ++ ":" ++ service ++ " has no ports"))
      else none

/-! ### Exposure orchestrator (`WaitAndMaybeOpenService`, lines 261-307)

The observable side effects (the printed table, `out.T` notices, printed URLs,
browser launches) are embedded as a list of output events; the retry
primitive `retry.Expo` and the browser launcher are passed as behaviors. -/

/-- One observable output of the orchestrator. -/
inductive OutEvent where
  | table (rows : List (List String))
  | sad (message : String)
  | url (s : String)
  | openBrowser (s : String)
  | browserErr (message : String)
  deriving Repr, DecidableEq

/-- The per-URL loop of `WaitAndMaybeOpenService` (lines 294-305): apply the
HTTPS-upgrade rule to each URL; in URL mode, or when the URL is not
http-schemed, print it; otherwise announce and attempt a browser launch,
reporting (but not failing on) a launch error. -/
def openURLsLoop (browser : String → Option String) (urlMode https : Bool) :
    List String → List OutEvent
  | [] => []
  | bareURLString :: rest =>
    let r := OptionallyHTTPSFormattedURLString bareURLString https
    let events :=
      if urlMode || !r.2 then [OutEvent.url r.1]
      else
        match browser r.1 with
        | some e => [OutEvent.openBrowser r.1, OutEvent.browserErr e]
        | none => [OutEvent.openBrowser r.1]
    events ++ openURLsLoop browser urlMode https rest

/-- Embeds `WaitAndMaybeOpenService` (lines 261-307). `expo` is the behavior
of `retry.Expo` applied to the readiness check, taking the interval and wait
arguments (in that order, as at line 270) and returning its failure, if any;
`svcURLResult` is the result of `GetServiceURLsForService`; `browser` is the
launcher's per-URL failure behavior. Returns the emitted output events and
the returned error. Only a zero `interval` is replaced by 1 (lines 265-267);
`wait` is handed to `expo` unchanged. -/
def WaitAndMaybeOpenService (expo : Int → Int → Option GoError)
    (svcURLResult : Except GoError SvcURL) (browser : String → Option String)
    (ns service : String) (urlMode https : Bool) (wait interval : Int) :
    List OutEvent × Option GoError :=
  match expo (if interval = 0 then 1 else interval) wait with
  | some e =>
    ([], some (.wrap ("Could not find finalized endpoint being pointed to by " ++ service) e))
  | none =>
    match svcURLResult with
    | .error e =>
      ([], some (.wrap "Check that minikube is running and that you have specified the correct namespace" e))
    | .ok serviceURL =>
      let tableEvents : List OutEvent :=
        if urlMode then []
        else if serviceURL.URLs.length = 0 then
          [.table [[ns, service, "", "No node port"]]]
        else
          [.table [[ns, service, String.intercalate "\n" serviceURL.PortNames,
                    String.intercalate "\n" serviceURL.URLs]]]
      if serviceURL.URLs.length = 0 then
        (tableEvents ++ [.sad (ns ++ "/" ++ service ++ " has no node port")], none)
      else
        (tableEvents ++ openURLsLoop browser urlMode https serviceURL.URLs, none)

/-! ### Secret lifecycle (`CreateSecret` lines 328-367, `DeleteSecret` lines 369-383)

The kubernetes secrets store is embedded as explicit state. -/

/-- The fields of `core.Secret` the source writes: name, labels, byte data and
type. Byte data is modelled as lists of byte values. -/
structure Secret where
  name : String
  labels : List (String × String)
  data : List (String × List Nat)
  type : String
  deriving Repr, DecidableEq

/-- The UTF-8 encoding of one character, as a list of byte values. -/
def utf8Bytes (c : Char) : List Nat :=
  let n := c.toNat
  if n < 128 then [n]
  else if n < 2048 then [192 + n / 64, 128 + n % 64]
  else if n < 65536 then [224 + n / 4096, 128 + (n / 64) % 64, 128 + n % 64]
  else [240 + n / 262144, 128 + (n / 4096) % 64, 128 + (n / 64) % 64, 128 + n % 64]

/-- Models Go's `[]byte(value)`: the UTF-8 bytes of the string. -/
def stringBytes (s : String) : List Nat := s.data.flatMap utf8Bytes

/-- A namespace's secrets, keyed by name. -/
abbrev SecretStore : Type := List Secret

/-- Modelled from the spec: the client's secrets accessor supports get-by-name
(§6); fetching an absent name is an error, and the client-go convention of
returning a zero-value object alongside the error is captured by the caller
falling back to the zero `Secret` (whose `name` is `""`) on error. -/
def storeGet (st : SecretStore) (nm : String) : Except GoError Secret :=
  match st.find? (fun s => decide (s.name = nm)) with
  | some s => .ok s
  | none => .error (.msg ("secrets " ++ nm ++ " not found"))

/-- Modelled from the spec: the client's secrets accessor supports delete
(§6); deleting an absent name is an error, deleting a present name removes
it. -/
def storeDelete (st : SecretStore) (nm : String) : Except GoError SecretStore :=
  if st.any (fun s => decide (s.name = nm)) then
    .ok (st.filter (fun s => !(decide (s.name = nm))))
  else .error (.msg ("secrets " ++ nm ++ " not found"))

/-- Modelled from the spec: the client's secrets accessor supports create
(§6); creating an already-present name is an error, otherwise the secret is
added. -/
def storeCreate (st : SecretStore) (s : Secret) : Except GoError SecretStore :=
  if st.any (fun x => decide (x.name = s.name)) then
    .error (.msg ("secrets " ++ s.name ++ " already exists"))
  else .ok (st ++ [s])

/-- Embeds `DeleteSecret` (lines 369-383): a failed client acquisition and a
failed delete are both returned as `RetriableError`; success returns the
updated store and no error. -/
def DeleteSecret (clientResult : Except GoError Unit) (st : SecretStore)
    (_ns nm : String) : SecretStore × Option GoError :=
  match clientResult with
  | .error e => (st, some (.retriable e))
  | .ok _ =>
    match storeDelete st nm with
    | .error e => (st, some (.retriable e))
    | .ok st' => (st', none)

/-- The zero value of `core.Secret`, as left by a failed `Get`. -/
def emptySecret : Secret := { name := "", labels := [], data := [], type := "" }

/-- Embeds `CreateSecret` (lines 328-367). `clientResult` is this call's
client acquisition; `delClientResult` is the acquisition performed inside the
nested `DeleteSecret` call. The existing secret is looked up with the lookup
error ignored (line 335); a found secret (non-empty name) is deleted first,
a delete failure returning as `RetriableError`; then the string data values
are converted to bytes and an `Opaque`-typed secret is created, a create
failure returning as `RetriableError`. -/
def CreateSecret (clientResult delClientResult : Except GoError Unit)
    (st : SecretStore) (ns nm : String) (dataValues : List (String × String))
    (labels : List (String × String)) : SecretStore × Option GoError :=
  match clientResult with
  | .error e => (st, some (.retriable e))
  | .ok _ =>
    let secret := match storeGet st nm with
      | .ok s => s
      | .error _ => emptySecret
    let afterDelete : SecretStore × Option GoError :=
      if 0 < secret.name.length then
        match DeleteSecret delClientResult st ns nm with
        | (st', some e) => (st', some (.retriable e))
        | (st', none) => (st', none)
      else (st, none)
    match afterDelete with
    | (st', some e) => (st', some e)
    | (st', none) =>
      let data := dataValues.map (fun kv => (kv.1, stringBytes kv.2))
      let secretObj : Secret := { name := nm, labels := labels, data := data, type := "Opaque" }
      match storeCreate st' secretObj with
      | .error e => (st', some (.retriable e))
      | .ok st2 => (st2, none)

/-! ### Concrete sample values used by witness theorems -/

/-- A sample URL template rendering `IP/Name`. -/
def tmplSample : Template := fun i => .ok (i.IP ++ "/" ++ i.Name)

/-- A template that fails on every render. -/
def tmplBoom : Template := fun _ => .error "boom"

/-- A sample service: one exposed port, one cluster-internal port. -/
def svcSample : Service :=
  { name := "svc", ns := "default",
    ports := [{ name := "a", nodePort := 30001, targetPort := .int 8080 },
              { name := "b", nodePort := 0, targetPort := .int 9090 }] }

/-- A sample service whose only exposed port has a string-valued target
port. -/
def svcSampleStr : Service :=
  { name := "svc2", ns := "default",
    ports := [{ name := "c", nodePort := 30002, targetPort := .str "web" }] }

/-- Sample endpoints: one subset naming numeric port 8080 `pa`. -/
def eptSample : Except GoError Endpoints :=
  .ok { subsets := [{ ports := [{ name := "pa", port := 8080 }] }] }

/-- The resolution of `svcSample` under `tmplSample` and `eptSample`. -/
def svcURLSample : SvcURL :=
  { ns := "default", name := "svc", URLs := ["1.2.3.4/pa"], PortNames := ["pa"] }

/-- The resolution of `svcSampleStr` under `tmplSample` and `eptSample`: the
string target port resolves through numeric port 0, absent from the index. -/
def svcURLSampleStr : SvcURL :=
  { ns := "default", name := "svc2", URLs := ["1.2.3.4/"], PortNames := [""] }

/-! ## Theorems -/

/-- Inversion of the per-port loop on success: the port names are exactly the
index lookups of the qualifying ports in declaration order, and the URLs are
pointwise the successful renders of those same ports. -/
theorem svcPortLoop_ok_spec (t : Template) (ip : String) (m : Int → String)
    (ports : List ServicePort) (urls portNames : List String)
    (h : svcPortLoop t ip m ports = .ok (urls, portNames)) :
    portNames = (ports.filter (fun p => 0 < p.nodePort)).map
        (fun p => m p.targetPort.intVal) ∧
    List.Forall₂
      (fun p url =>
        t { IP := ip, Port := p.nodePort, Name := m p.targetPort.intVal } = Except.ok url)
      (ports.filter (fun p => 0 < p.nodePort)) urls := by
  induction ports generalizing urls portNames with
  | nil =>
    simp only [svcPortLoop, Except.ok.injEq, Prod.mk.injEq] at h
    obtain ⟨rfl, rfl⟩ := h
    exact ⟨rfl, List.Forall₂.nil⟩
  | cons port rest ih =>
    by_cases hp : 0 < port.nodePort
    · rw [svcPortLoop, if_pos hp] at h
      cases ht : t { IP := ip, Port := port.nodePort, Name := m port.targetPort.intVal } with
      | error e => rw [ht] at h; cases h
      | ok doc =>
        rw [ht] at h
        cases hr : svcPortLoop t ip m rest with
        | error e => rw [hr] at h; cases h
        | ok pr =>
          obtain ⟨urls', portNames'⟩ := pr
          rw [hr] at h
          simp only [Except.ok.injEq, Prod.mk.injEq] at h
          obtain ⟨rfl, rfl⟩ := h
          obtain ⟨ih1, ih2⟩ := ih urls' portNames' hr
          refine ⟨?_, ?_⟩
          · simp [List.filter_cons_of_pos, hp, ih1]
          · have hdp : decide (0 < port.nodePort) = true := decide_eq_true hp
            simp only [List.filter_cons, hdp, if_true]
            exact List.Forall₂.cons ht ih2
    · rw [svcPortLoop, if_neg hp] at h
      obtain ⟨ih1, ih2⟩ := ih urls portNames h
      simp [List.filter_cons_of_neg, hp, ih1, ih2]

/-- Inversion of the per-port loop: if every qualifying port before some
qualifying port renders successfully and that port's render fails with `e`,
the whole loop fails with exactly that error. -/
theorem svcPortLoop_error_spec (t : Template) (ip : String) (m : Int → String)
    (pre : List ServicePort) (p : ServicePort) (post : List ServicePort) (e : String)
    (hpre : ∀ q ∈ pre, 0 < q.nodePort →
      ∃ d, t { IP := ip, Port := q.nodePort, Name := m q.targetPort.intVal } = Except.ok d)
    (hp : 0 < p.nodePort)
    (he : t { IP := ip, Port := p.nodePort, Name := m p.targetPort.intVal } = Except.error e) :
    svcPortLoop t ip m (pre ++ p :: post) = .error (.msg e) := by
  induction pre with
  | nil => rw [List.nil_append, svcPortLoop, if_pos hp, he]
  | cons q rest ih =>
    have ihr := ih (fun x hx hxp => hpre x (List.mem_cons_of_mem q hx) hxp)
    by_cases hq : 0 < q.nodePort
    · obtain ⟨d, hd⟩ := hpre q (List.mem_cons_self q rest) hq
      rw [List.cons_append, svcPortLoop, if_pos hq, hd, ihr]
    · rw [List.cons_append, svcPortLoop, if_neg hq]
      exact ihr

/-- Inversion of a successful `printURLsForService`: shape and contents of
the returned `SvcURL` in terms of the qualifying declared ports. -/
theorem printURLs_ok_spec (svc : Service) (eptResult : Except GoError Endpoints)
    (ip : String) (tmpl : Template) (u : SvcURL)
    (h : printURLsForService (.ok svc) eptResult ip (some tmpl) = .ok u) :
    u.URLs.length = (svc.ports.filter (fun p => 0 < p.nodePort)).length ∧
    u.PortNames.length = (svc.ports.filter (fun p => 0 < p.nodePort)).length ∧
    u.PortNames = (svc.ports.filter (fun p => 0 < p.nodePort)).map
        (fun p => endpointPortIndex eptResult p.targetPort.intVal) ∧
    List.Forall₂
      (fun p url =>
        tmpl { IP := ip, Port := p.nodePort,
               Name := endpointPortIndex eptResult p.targetPort.intVal } = Except.ok url)
      (svc.ports.filter (fun p => 0 < p.nodePort)) u.URLs := by
  rw [printURLsForService] at h
  cases hl : svcPortLoop tmpl ip (endpointPortIndex eptResult) svc.ports with
  | error e => rw [hl] at h; cases h
  | ok pr =>
    obtain ⟨urls, portNames⟩ := pr
    rw [hl] at h
    simp only [Except.ok.injEq] at h
    subst h
    obtain ⟨h1, h2⟩ := svcPortLoop_ok_spec _ _ _ _ _ _ hl
    refine ⟨(h2.length_eq).symm, ?_, h1, h2⟩
    rw [h1, List.length_map]

/-- C1: on a successful resolution, the result has one URL and one port name
per declared port with a strictly positive node port (both result sequences
have the number of qualifying ports as length), in declaration order,
`PortNames` holding the endpoint index lookups of those ports and each
`URLs` entry being the template render backed by the port name at the same
position. -/
theorem service_resolution_shape (svc : Service) (eptResult : Except GoError Endpoints)
    (ip : String) (tmpl : Template) (u : SvcURL)
    (h : printURLsForService (.ok svc) eptResult ip (some tmpl) = .ok u) :
    u.URLs.length = (svc.ports.filter (fun p => 0 < p.nodePort)).length ∧
    u.PortNames.length = (svc.ports.filter (fun p => 0 < p.nodePort)).length ∧
    u.PortNames = (svc.ports.filter (fun p => 0 < p.nodePort)).map
        (fun p => endpointPortIndex eptResult p.targetPort.intVal) ∧
    List.Forall₂
      (fun p url =>
        tmpl { IP := ip, Port := p.nodePort,
               Name := endpointPortIndex eptResult p.targetPort.intVal } = Except.ok url)
      (svc.ports.filter (fun p => 0 < p.nodePort)) u.URLs :=
  printURLs_ok_spec svc eptResult ip tmpl u h

/-- C1 witness: the shape property instantiated on `svcSample`, whose two
declared ports contain one qualifying port. -/
theorem service_resolution_shape_witness :
    svcURLSample.URLs.length = (svcSample.ports.filter (fun p => 0 < p.nodePort)).length ∧
    svcURLSample.PortNames.length = (svcSample.ports.filter (fun p => 0 < p.nodePort)).length ∧
    svcURLSample.PortNames = (svcSample.ports.filter (fun p => 0 < p.nodePort)).map
        (fun p => endpointPortIndex eptSample p.targetPort.intVal) ∧
    List.Forall₂
      (fun p url =>
        tmplSample { IP := "1.2.3.4", Port := p.nodePort,
                     Name := endpointPortIndex eptSample p.targetPort.intVal } = Except.ok url)
      (svcSample.ports.filter (fun p => 0 < p.nodePort)) svcURLSample.URLs :=
  service_resolution_shape svcSample eptSample "1.2.3.4" tmplSample svcURLSample rfl

/-- C5: a nil template is an immediate error on every input, and a template
execution failure on a qualifying port aborts the whole resolution with that
error — the overall result is the error alone, never a partial `SvcURL`
holding the URLs accumulated for earlier ports. -/
theorem nil_template_and_render_failure (svcResult : Except GoError Service)
    (eptResult : Except GoError Endpoints) (ip : String) :
    printURLsForService svcResult eptResult ip none =
      .error (.msg "Error, attempted to generate service url with nil --format template") ∧
    (∀ (nm nsp : String) (pre : List ServicePort) (p : ServicePort) (post : List ServicePort)
        (tmpl : Template) (e : String),
      (∀ q ∈ pre, 0 < q.nodePort →
        ∃ d, tmpl { IP := ip, Port := q.nodePort,
                    Name := endpointPortIndex eptResult q.targetPort.intVal } = Except.ok d) →
      0 < p.nodePort →
      tmpl { IP := ip, Port := p.nodePort,
             Name := endpointPortIndex eptResult p.targetPort.intVal } = Except.error e →
      printURLsForService (.ok { name := nm, ns := nsp, ports := pre ++ p :: post })
          eptResult ip (some tmpl) = .error (.msg e)) := by
  constructor
  · rfl
  · intro nm nsp pre p post tmpl e hpre hp he
    rw [printURLsForService]
    rw [svcPortLoop_error_spec tmpl ip _ pre p post e hpre hp he]

/-- C5 witness: a failing template on a service with one qualifying port
aborts the resolution with the template's error. -/
theorem nil_template_and_render_failure_witness :
    printURLsForService
        (.ok { name := "svc2", ns := "default",
               ports := [{ name := "c", nodePort := 30002, targetPort := .str "web" }] })
        eptSample "1.2.3.4" (some tmplBoom) = .error (.msg "boom") :=
  (nil_template_and_render_failure (.ok svcSampleStr) eptSample "1.2.3.4").2
    "svc2" "default" [] { name := "c", nodePort := 30002, targetPort := .str "web" } []
    tmplBoom "boom" (fun q hq => absurd hq (List.not_mem_nil q)) (by decide) rfl

/-- The nested fold of `buildPortMap` equals the fold over the flattened
subset port lists. -/
theorem buildPortMap_eq_flatten (subsets : List EndpointSubset) :
    buildPortMap subsets =
      ((subsets.map EndpointSubset.ports).flatten).foldl
        (fun m p => fun k => if k = p.port then p.name else m k) (fun _ => "") := by
  rw [buildPortMap, List.foldl_flatten, List.foldl_map]

/-- Applying a fold of port-map updates at `k`: the last entry matching `k`
wins, and the initial map is consulted when no entry matches. -/
theorem foldl_portUpdate_apply (l : List EndpointPort) (m : Int → String) (k : Int) :
    (l.foldl (fun m p => fun k => if k = p.port then p.name else m k) m) k =
      match l.reverse.find? (fun p => decide (p.port = k)) with
      | some p => p.name
      | none => m k := by
  induction l using List.reverseRecOn with
  | nil => rfl
  | append_singleton l a ih =>
    rw [List.foldl_append, List.foldl_cons, List.foldl_nil, List.reverse_append]
    by_cases h : a.port = k
    · simp [List.find?_cons, h]
    · simp only [List.reverse_cons, List.reverse_nil, List.nil_append, List.cons_append,
        List.find?_cons, decide_eq_true_eq]
      rw [if_neg (fun hk => h hk.symm)]
      simpa [h] using ih

/-- When a numeric port occurs in no subset, the index maps it to `""`. -/
theorem buildPortMap_absent (subsets : List EndpointSubset) (k : Int)
    (h : ∀ subset ∈ subsets, ∀ q ∈ subset.ports, q.port ≠ k) :
    buildPortMap subsets k = "" := by
  rw [buildPortMap_eq_flatten, foldl_portUpdate_apply]
  have hnone : ((subsets.map EndpointSubset.ports).flatten).reverse.find?
      (fun p => decide (p.port = k)) = none := by
    rw [List.find?_eq_none]
    intro x hx
    simp only [List.mem_reverse, List.mem_flatten] at hx
    obtain ⟨l, hl, hxl⟩ := hx
    obtain ⟨subset, hsub, rfl⟩ := List.mem_map.mp hl
    simpa using h subset hsub x hxl
  rw [hnone]

/-- C6: the endpoint-port index maps each numeric port to the name of the
final occurrence of that port in iteration order over the subsets and their
port entries (later entries overwrite earlier ones), and to the empty string
when the port occurs nowhere. -/
theorem endpoint_index_last_wins (subsets : List EndpointSubset) (k : Int) :
    buildPortMap subsets k =
      match ((subsets.map EndpointSubset.ports).flatten).reverse.find?
          (fun p => decide (p.port = k)) with
      | some p => p.name
      | none => "" := by
  rw [buildPortMap_eq_flatten]
  exact foldl_portUpdate_apply _ _ k

/-- C10: a qualifying port declared with a string-valued target port resolves
its endpoint name through the integer view of the target port, which is `0`
for string values: the resolved name is the index entry for numeric port 0,
and in particular the empty string when no endpoint port 0 exists — never the
declared string name as such. -/
theorem string_target_port_resolution (svc : Service)
    (eptResult : Except GoError Endpoints) (ip : String) (tmpl : Template) (u : SvcURL)
    (h : printURLsForService (.ok svc) eptResult ip (some tmpl) = .ok u)
    (i : Nat) (p : ServicePort) (s : String)
    (hq : (svc.ports.filter (fun q => 0 < q.nodePort))[i]? = some p)
    (hstr : p.targetPort = .str s) :
    u.PortNames[i]? = some (endpointPortIndex eptResult 0) ∧
    (∀ endpoints, eptResult = .ok endpoints →
      (∀ subset ∈ endpoints.subsets, ∀ q ∈ subset.ports, q.port ≠ 0) →
      u.PortNames[i]? = some "") := by
  obtain ⟨-, -, hnames, -⟩ := printURLs_ok_spec svc eptResult ip tmpl u h
  have hval : p.targetPort.intVal = 0 := by rw [hstr]; rfl
  have h0 : u.PortNames[i]? = some (endpointPortIndex eptResult 0) := by
    rw [hnames, List.getElem?_map, hq]
    simp [hval]
  refine ⟨h0, ?_⟩
  intro endpoints heq habs
  have hidx : endpointPortIndex eptResult 0 = "" := by
    rw [heq]
    simp only [endpointPortIndex]
    by_cases hlen : 0 < endpoints.subsets.length
    · rw [if_pos hlen]
      exact buildPortMap_absent _ _ habs
    · rw [if_neg hlen]
  rw [h0, hidx]

/-- C10 witness: the string-target-port property instantiated on
`svcSampleStr` against `eptSample`, whose only endpoint port is 8080. -/
theorem string_target_port_resolution_witness :
    svcURLSampleStr.PortNames[0]? = some (endpointPortIndex eptSample 0) ∧
    (∀ endpoints, eptSample = .ok endpoints →
      (∀ subset ∈ endpoints.subsets, ∀ q ∈ subset.ports, q.port ≠ 0) →
      svcURLSampleStr.PortNames[0]? = some "") :=
  string_target_port_resolution svcSampleStr eptSample "1.2.3.4" tmplSample
    svcURLSampleStr rfl 0 { name := "c", nodePort := 30002, targetPort := .str "web" }
    "web" rfl rfl

/-- C3 as stated is false at its own second example: with the flag unset the
string is returned unchanged but the boolean still reports the scheme, so it
is `true`, not `false`. -/
theorem https_upgrade_rule_counterexample :
    OptionallyHTTPSFormattedURLString "http://10.0.0.1:3000" false =
      ("http://10.0.0.1:3000", true) ∧
    OptionallyHTTPSFormattedURLString "http://10.0.0.1:3000" false ≠
      ("http://10.0.0.1:3000", false) := by decide

/-- C3 (amended): the returned boolean says exactly whether `url.Parse`
succeeded on the input with scheme exactly `http` (independent of the flag);
when that holds and the flag is set, the returned string is the input with
the first occurrence of the literal substring `http` replaced by `https`; in
every other case — non-http scheme, failed parse, or unset flag — the input
string is returned unchanged; the concrete examples hold with the flag-false
example returning boolean `true`; and on inputs whose parse fails after the
scheme (an invalid escape or an invalid host character) nothing is rewritten
and the boolean is `false`. -/
theorem https_upgrade_rule (s : String) (flag : Bool) :
    ((OptionallyHTTPSFormattedURLString s flag).2 = true ↔ urlParseScheme s = some "http") ∧
    (urlParseScheme s = some "http" → flag = true →
      (OptionallyHTTPSFormattedURLString s flag).1 = replaceFirst s "http" "https") ∧
    (urlParseScheme s ≠ some "http" ∨ flag = false →
      (OptionallyHTTPSFormattedURLString s flag).1 = s) ∧
    OptionallyHTTPSFormattedURLString "http://10.0.0.1:3000" true =
      ("https://10.0.0.1:3000", true) ∧
    OptionallyHTTPSFormattedURLString "http://10.0.0.1:3000" false =
      ("http://10.0.0.1:3000", true) ∧
    OptionallyHTTPSFormattedURLString "https://x" true = ("https://x", false) ∧
    OptionallyHTTPSFormattedURLString "http://%zz" true = ("http://%zz", false) ∧
    OptionallyHTTPSFormattedURLString "http://a b" true = ("http://a b", false) := by
  refine ⟨?_, ?_, ?_, by decide, by decide, by decide, by decide, by decide⟩
  · rw [OptionallyHTTPSFormattedURLString]
    cases hu : urlParseScheme s with
    | none => simp
    | some sch => simp
  · intro hs hf
    rw [OptionallyHTTPSFormattedURLString, hs, hf]
    simp
  · intro hcase
    rw [OptionallyHTTPSFormattedURLString]
    rcases hcase with hns | hf
    · cases hu : urlParseScheme s with
      | none => simp
      | some sch =>
        have : ¬(sch = "http") := fun hc => hns (by rw [hu, hc])
        simp [this]
    · rw [hf]
      cases hu : urlParseScheme s with
      | none => simp
      | some sch => simp

/-- C3 witness: the rewrite clause discharged on the first example and the
unchanged clause discharged on the https example. -/
theorem https_upgrade_rule_witness :
    (OptionallyHTTPSFormattedURLString "http://10.0.0.1:3000" true).1 =
      replaceFirst "http://10.0.0.1:3000" "http" "https" ∧
    (OptionallyHTTPSFormattedURLString "https://x" true).1 = "https://x" :=
  ⟨(https_upgrade_rule "http://10.0.0.1:3000" true).2.1 (by decide) rfl,
   (https_upgrade_rule "https://x" true).2.2.1 (Or.inl (by decide))⟩

/-- C2: with the client available, a failed fetch-by-name yields a
`RetriableError` wrapping the cause; a fetched service with an empty declared
port list yields a plain, non-retriable error; a fetched service declaring at
least one port yields no error. -/
theorem check_service_classification (ns service : String) :
    (∀ e : GoError,
      CheckService (.ok ()) (.error e) ns service =
        some (.retriable (.wrap ("Error getting service " ++ service) e)) ∧
      (GoError.retriable (.wrap ("Error getting service " ++ service) e)).isRetriable = true) ∧
    (∀ nm nsp : String,
      CheckService (.ok ()) (.ok { name := nm, ns := nsp, ports := [] }) ns service =
        some (.msg (ns ++ ":" ++ service ++ " has no ports")) ∧
      (GoError.msg (ns ++ ":" ++ service ++ " has no ports")).isRetriable = false) ∧
    (∀ (nm nsp : String) (p : ServicePort) (rest : List ServicePort),
      CheckService (.ok ()) (.ok { name := nm, ns := nsp, ports := p :: rest }) ns service =
        none) :=
  ⟨fun _ => ⟨rfl, rfl⟩, fun _ _ => ⟨rfl, rfl⟩, fun _ _ _ _ => rfl⟩

/-- C9: `DeleteSecret` classifies every failure as retriable: a failed client
acquisition returns a `RetriableError` wrapping the cause, deleting a name
absent from the store returns a `RetriableError`, and a successful delete
removes the secret and returns no error. -/
theorem delete_secret_retriable (ns nm : String) :
    (∀ (e : GoError) (st : SecretStore),
      DeleteSecret (.error e) st ns nm = (st, some (.retriable e))) ∧
    (∀ st : SecretStore, ∃ cause : GoError,
      DeleteSecret (.ok ()) (st.filter (fun s => !(decide (s.name = nm)))) ns nm =
        (st.filter (fun s => !(decide (s.name = nm))), some (.retriable cause))) ∧
    (∀ (lb : List (String × String)) (dt : List (String × List Nat)) (tp : String)
        (rest : SecretStore),
      DeleteSecret (.ok ()) ({ name := nm, labels := lb, data := dt, type := tp } :: rest)
          ns nm =
        (({ name := nm, labels := lb, data := dt, type := tp } :: rest).filter
            (fun s => !(decide (s.name = nm))), none)) := by
  refine ⟨fun _ _ => rfl, fun st => ?_, fun lb dt tp rest => ?_⟩
  · have hany : (st.filter (fun s => !(decide (s.name = nm)))).any
        (fun s => decide (s.name = nm)) = false := by
      rw [List.any_eq_false]
      intro x hx
      simpa using (List.mem_filter.mp hx).2
    exact ⟨.msg ("secrets " ++ nm ++ " not found"), by simp [DeleteSecret, storeDelete, hany]⟩
  · have hany : (({ name := nm, labels := lb, data := dt, type := tp } : Secret) :: rest).any
        (fun s => decide (s.name = nm)) = true := by simp
    simp [DeleteSecret, storeDelete, hany]

/-- C4 as stated is false: the wait budget is not normalized. Against a
backoff behavior that fails exactly when it receives a zero wait budget, a
zero `wait` argument makes the operation fail — the backoff saw `wait = 0` —
while `wait = 1` succeeds; had `wait` been normalized to a minimum of one,
both calls would behave identically. -/
theorem wait_interval_normalization_counterexample :
    (WaitAndMaybeOpenService (fun _ w => if w = 0 then some (.msg "no attempt") else none)
        (.ok { ns := "default", name := "svc", URLs := [], PortNames := [] })
        (fun _ => none) "default" "svc" true false 0 5).2 =
      some (.wrap "Could not find finalized endpoint being pointed to by svc"
        (.msg "no attempt")) ∧
    (WaitAndMaybeOpenService (fun _ w => if w = 0 then some (.msg "no attempt") else none)
        (.ok { ns := "default", name := "svc", URLs := [], PortNames := [] })
        (fun _ => none) "default" "svc" true false 1 5).2 = none :=
  ⟨rfl, rfl⟩

/-- C4 (amended): only a zero interval is normalized (a zero `interval`
behaves exactly as `interval = 1`), and the backoff is consulted exactly once,
at the normalized interval and the *unchanged* wait budget: two backoff
behaviors agreeing at that one point make the whole operation agree. -/
theorem wait_interval_normalization (expo expoB : Int → Int → Option GoError)
    (svcURLResult : Except GoError SvcURL) (browser : String → Option String)
    (ns service : String) (urlMode https : Bool) (wait interval : Int)
    (h : expo (if interval = 0 then 1 else interval) wait =
         expoB (if interval = 0 then 1 else interval) wait) :
    WaitAndMaybeOpenService expo svcURLResult browser ns service urlMode https wait interval =
      WaitAndMaybeOpenService expoB svcURLResult browser ns service urlMode https wait interval ∧
    WaitAndMaybeOpenService expo svcURLResult browser ns service urlMode https wait 0 =
      WaitAndMaybeOpenService expo svcURLResult browser ns service urlMode https wait 1 := by
  constructor
  · unfold WaitAndMaybeOpenService
    rw [h]
  · rfl

/-- C4 witness: the amended normalization property at a concrete backoff
behavior and arguments. -/
theorem wait_interval_normalization_witness :
    WaitAndMaybeOpenService (fun _ _ => none)
        (.ok { ns := "d", name := "s", URLs := [], PortNames := [] })
        (fun _ => none) "d" "s" true false 3 0 =
      WaitAndMaybeOpenService (fun _ _ => none)
        (.ok { ns := "d", name := "s", URLs := [], PortNames := [] })
        (fun _ => none) "d" "s" true false 3 0 ∧
    WaitAndMaybeOpenService (fun _ _ => none)
        (.ok { ns := "d", name := "s", URLs := [], PortNames := [] })
        (fun _ => none) "d" "s" true false 3 0 =
      WaitAndMaybeOpenService (fun _ _ => none)
        (.ok { ns := "d", name := "s", URLs := [], PortNames := [] })
        (fun _ => none) "d" "s" true false 3 1 :=
  wait_interval_normalization (fun _ _ => none) (fun _ _ => none)
    (.ok { ns := "d", name := "s", URLs := [], PortNames := [] })
    (fun _ => none) "d" "s" true false 3 0 rfl

/-- C8: after a successful wait, a resolution whose `URLs` sequence is empty
makes the orchestrator emit the "no node port" notice (after the
"No node port" table row unless in URL mode) and return no error: an empty
exposure is a non-error outcome. -/
theorem empty_exposure_not_error (expo : Int → Int → Option GoError)
    (browser : String → Option String) (ns service a b : String)
    (pn : List String) (urlMode https : Bool) (wait interval : Int)
    (hexpo : expo (if interval = 0 then 1 else interval) wait = none) :
    WaitAndMaybeOpenService expo (.ok { ns := a, name := b, URLs := [], PortNames := pn })
        browser ns service urlMode https wait interval =
      ((if urlMode then [] else [.table [[ns, service, "", "No node port"]]]) ++
        [.sad (ns ++ "/" ++ service ++ " has no node port")], none) ∧
    (WaitAndMaybeOpenService expo (.ok { ns := a, name := b, URLs := [], PortNames := pn })
        browser ns service urlMode https wait interval).2 = none ∧
    OutEvent.sad (ns ++ "/" ++ service ++ " has no node port") ∈
      (WaitAndMaybeOpenService expo (.ok { ns := a, name := b, URLs := [], PortNames := pn })
        browser ns service urlMode https wait interval).1 := by
  have hmain : WaitAndMaybeOpenService expo
      (.ok { ns := a, name := b, URLs := [], PortNames := pn })
      browser ns service urlMode https wait interval =
      ((if urlMode then [] else [.table [[ns, service, "", "No node port"]]]) ++
        [.sad (ns ++ "/" ++ service ++ " has no node port")], none) := by
    unfold WaitAndMaybeOpenService
    rw [hexpo]
    simp
  refine ⟨hmain, by rw [hmain], ?_⟩
  rw [hmain]
  simp

/-- C8 witness: the empty-exposure outcome at a concrete instantiation in
table mode. -/
theorem empty_exposure_not_error_witness :
    WaitAndMaybeOpenService (fun _ _ => none)
        (.ok { ns := "d", name := "s", URLs := [], PortNames := [] })
        (fun _ => none) "default" "svc" false false 10 2 =
      ((if false then [] else [.table [["default", "svc", "", "No node port"]]]) ++
        [.sad ("default" ++ "/" ++ "svc" ++ " has no node port")], none) ∧
    (WaitAndMaybeOpenService (fun _ _ => none)
        (.ok { ns := "d", name := "s", URLs := [], PortNames := [] })
        (fun _ => none) "default" "svc" false false 10 2).2 = none ∧
    OutEvent.sad ("default" ++ "/" ++ "svc" ++ " has no node port") ∈
      (WaitAndMaybeOpenService (fun _ _ => none)
        (.ok { ns := "d", name := "s", URLs := [], PortNames := [] })
        (fun _ => none) "default" "svc" false false 10 2).1 :=
  empty_exposure_not_error (fun _ _ => none) (fun _ => none) "default" "svc" "d" "s"
    [] false false 10 2 rfl

/-- A store purged of a name contains nothing with that name. -/
theorem filtered_any_name (st : SecretStore) (nm : String) :
    (st.filter (fun s => !(decide (s.name = nm)))).any (fun s => decide (s.name = nm)) =
      false := by
  rw [List.any_eq_false]
  intro x hx
  simpa using (List.mem_filter.mp hx).2

/-- Inversion of `CreateSecret` with both client acquisitions succeeding and
a non-empty name: the result is the store purged of secrets with that name,
extended with the freshly created opaque secret, with no error. -/
theorem CreateSecret_ok_clients (st : SecretStore) (ns nm : String)
    (d labels : List (String × String)) (hnm : 0 < nm.length) :
    CreateSecret (.ok ()) (.ok ()) st ns nm d labels =
      (st.filter (fun s => !(decide (s.name = nm))) ++
        [{ name := nm, labels := labels,
           data := d.map (fun kv => (kv.1, stringBytes kv.2)), type := "Opaque" }],
       none) := by
  cases hfind : st.find? (fun s => decide (s.name = nm)) with
  | none =>
    have hall : ∀ x ∈ st, ¬(x.name = nm) := by
      intro x hx
      simpa using List.find?_eq_none.mp hfind x hx
    have hany : st.any (fun x => decide (x.name = nm)) = false := by
      rw [List.any_eq_false]
      intro x hx
      simpa using hall x hx
    have hfilter : st.filter (fun s => !(decide (s.name = nm))) = st := by
      rw [List.filter_eq_self]
      intro x hx
      simpa using hall x hx
    simp [CreateSecret, storeGet, hfind, emptySecret, storeCreate, hany, hfilter]
  | some sfound =>
    have hs : sfound.name = nm := by
      have := List.find?_some (p := fun (s : Secret) => decide (s.name = nm)) hfind
      simpa using this
    have hmem : sfound ∈ st := List.mem_of_find?_eq_some hfind
    have hany : st.any (fun s => decide (s.name = nm)) = true :=
      List.any_eq_true.mpr ⟨sfound, hmem, by simp [hs]⟩
    have hlen : 0 < sfound.name.length := by rw [hs]; exact hnm
    simp [CreateSecret, storeGet, hfind, hlen, DeleteSecret, storeDelete, hany,
      storeCreate, filtered_any_name st nm]

/-- C7: `CreateSecret` is a delete-then-create upsert. With the clients
available, two consecutive calls with the same non-empty name both succeed
and leave exactly one secret of that name: an opaque-typed secret holding the
second call's labels and its string data converted to byte sequences. When a
secret with the name exists (found by the error-ignoring lookup) and the
nested delete fails, that failure is returned wrapped as retriable. -/
theorem create_secret_upsert (st : SecretStore) (ns nm : String)
    (d1 d2 labels1 labels2 : List (String × String)) (hnm : 0 < nm.length) :
    (CreateSecret (.ok ()) (.ok ()) st ns nm d1 labels1).2 = none ∧
    (CreateSecret (.ok ()) (.ok ())
        (CreateSecret (.ok ()) (.ok ()) st ns nm d1 labels1).1 ns nm d2 labels2).2 = none ∧
    ((CreateSecret (.ok ()) (.ok ())
        (CreateSecret (.ok ()) (.ok ()) st ns nm d1 labels1).1 ns nm d2 labels2).1).filter
        (fun s => decide (s.name = nm)) =
      [{ name := nm, labels := labels2,
         data := d2.map (fun kv => (kv.1, stringBytes kv.2)), type := "Opaque" }] ∧
    (∀ (e : GoError) (lb : List (String × String)) (dt : List (String × List Nat))
        (tp : String) (rest : SecretStore),
      CreateSecret (.ok ()) (.error e)
          ({ name := nm, labels := lb, data := dt, type := tp } :: rest) ns nm d1 labels1 =
        ({ name := nm, labels := lb, data := dt, type := tp } :: rest,
         some (.retriable (.retriable e)))) := by
  have h1 := CreateSecret_ok_clients st ns nm d1 labels1 hnm
  have h2 := CreateSecret_ok_clients
    (st.filter (fun s => !(decide (s.name = nm))) ++
      [{ name := nm, labels := labels1,
         data := d1.map (fun kv => (kv.1, stringBytes kv.2)), type := "Opaque" }])
    ns nm d2 labels2 hnm
  refine ⟨by rw [h1], by rw [h1, h2], ?_, ?_⟩
  · rw [h1, h2]
    have hA : (st.filter (fun s => !(decide (s.name = nm)))).filter
        (fun s => !(decide (s.name = nm))) = st.filter (fun s => !(decide (s.name = nm))) := by
      rw [List.filter_eq_self]
      intro x hx
      exact (List.mem_filter.mp hx).2
    have hApos : (st.filter (fun s => !(decide (s.name = nm)))).filter
        (fun s => decide (s.name = nm)) = [] := by
      rw [List.filter_eq_nil_iff]
      intro x hx
      simpa using (List.mem_filter.mp hx).2
    simp [List.filter_append, hA, hApos]
  · intro e lb dt tp rest
    simp [CreateSecret, storeGet, List.find?_cons, hnm, DeleteSecret]

/-- C7 witness: the upsert at a concrete store and name, ending with the
second call's data. -/
theorem create_secret_upsert_witness :
    0 < ("creds").length ∧
    ((CreateSecret (.ok ()) (.ok ()) [] "ns1" "creds" [("k", "a")] [("l", "v")]).2 = none ∧
     (CreateSecret (.ok ()) (.ok ())
        (CreateSecret (.ok ()) (.ok ()) [] "ns1" "creds" [("k", "a")] [("l", "v")]).1
        "ns1" "creds" [("k", "b")] [("l", "w")]).2 = none ∧
     ((CreateSecret (.ok ()) (.ok ())
        (CreateSecret (.ok ()) (.ok ()) [] "ns1" "creds" [("k", "a")] [("l", "v")]).1
        "ns1" "creds" [("k", "b")] [("l", "w")]).1).filter
        (fun s => decide (s.name = "creds")) =
      [{ name := "creds", labels := [("l", "w")],
         data := [("k", "b")].map (fun kv => (kv.1, stringBytes kv.2)), type := "Opaque" }]) :=
  have h := create_secret_upsert [] "ns1" "creds" [("k", "a")] [("k", "b")]
    [("l", "v")] [("l", "w")] (by decide)
  ⟨by decide, h.1, h.2.1, h.2.2.1⟩

end MinikubeService
